import Mathlib

/-!
Shallow embedding of the yut-on-the-run game engine (TypeScript), together
with theorems checking the natural-language specification against it.

Modules embedded:
- `src/engine/board/index.ts` (board graph, `getNextNode`, `traverseSteps`)
- `src/engine/rng/index.ts` (stick sampling, `grantsBonus`)
- `src/engine/state/seed.ts` and `src/engine/rng/seeded.ts` (`normalizeSeed`)
- `src/engine/rewards/index.ts` (artifact candidates, Fisher-Yates)
- `src/engine/state/index.ts` (game state, stack operations)
- `src/engine/rules/index.ts` (`executeMove`)
- `src/engine/state/reducer.ts` (`gameReducer`)

Conventions: TypeScript `number` values that are used as nonnegative counts
(steps, indices, counters, `throwsRemaining`, `turn`) are embedded as `Nat`;
`Math.max(0, t - 1)` on a nonnegative `t` is exactly truncated subtraction
`t - 1`.  Probabilities and random draws in `[0,1)` are embedded as `ℚ`.
Fallible functions (TS `throw`) return `Except String`.  Ambient
nondeterminism (`Math.random()`, `Date.now()`) is made explicit as
parameters: a draw function for random draws and a `newStackId : String`
for the generated stack id.
-/

namespace YutRun

/-! ## Board graph (src/engine/board/index.ts) -/

/-- Node identifiers are opaque strings: `"O0"`..`"O20"`, `"C"`,
`"A1"`..`"A4"`, `"B1"`..`"B4"`. -/
abbrev NodeId := String

/-- `BranchOption` from src/engine/board/index.ts. -/
inductive BranchOption where
  | OUTER
  | DIAGONAL_A
  | DIAGONAL_B
  | TO_O15
  | TO_O20
deriving DecidableEq, Repr

/-- `BoardNode` from src/engine/board/index.ts. -/
structure BoardNode where
  id : NodeId
  isBranchNode : Bool
  next : List NodeId
deriving DecidableEq, Repr

/-- `BOARD_GRAPH` from src/engine/board/index.ts, embedded as an association
list keyed by node id (the TS record literal, in source order). -/
def BOARD_GRAPH : List (NodeId × BoardNode) :=
  [ ("O0", ⟨"O0", false, ["O1"]⟩)
  , ("O1", ⟨"O1", false, ["O2"]⟩)
  , ("O2", ⟨"O2", false, ["O3"]⟩)
  , ("O3", ⟨"O3", false, ["O4"]⟩)
  , ("O4", ⟨"O4", false, ["O5"]⟩)
  , ("O5", ⟨"O5", true, ["O6", "A1"]⟩)
  , ("O6", ⟨"O6", false, ["O7"]⟩)
  , ("O7", ⟨"O7", false, ["O8"]⟩)
  , ("O8", ⟨"O8", false, ["O9"]⟩)
  , ("O9", ⟨"O9", false, ["O10"]⟩)
  , ("O10", ⟨"O10", true, ["O11", "B1"]⟩)
  , ("O11", ⟨"O11", false, ["O12"]⟩)
  , ("O12", ⟨"O12", false, ["O13"]⟩)
  , ("O13", ⟨"O13", false, ["O14"]⟩)
  , ("O14", ⟨"O14", false, ["O15"]⟩)
  , ("O15", ⟨"O15", false, ["O16"]⟩)
  , ("O16", ⟨"O16", false, ["O17"]⟩)
  , ("O17", ⟨"O17", false, ["O18"]⟩)
  , ("O18", ⟨"O18", false, ["O19"]⟩)
  , ("O19", ⟨"O19", false, ["O20"]⟩)
  , ("O20", ⟨"O20", false, []⟩)
  , ("C", ⟨"C", true, ["A3", "B3"]⟩)
  , ("A1", ⟨"A1", false, ["A2"]⟩)
  , ("A2", ⟨"A2", false, ["C"]⟩)
  , ("A3", ⟨"A3", false, ["A4"]⟩)
  , ("A4", ⟨"A4", false, ["O15"]⟩)
  , ("B1", ⟨"B1", false, ["B2"]⟩)
  , ("B2", ⟨"B2", false, ["C"]⟩)
  , ("B3", ⟨"B3", false, ["B4"]⟩)
  , ("B4", ⟨"B4", false, ["O20"]⟩)
  ]

/-- `getNextNode` from src/engine/board/index.ts.  The TS optional
`branchChoice?` parameter becomes an explicit `Option BranchOption`, and the
TS `NodeId | null` return type becomes `Option NodeId`. -/
def getNextNode (nodeId : NodeId) (branchChoice : Option BranchOption) : Option NodeId :=
  match BOARD_GRAPH.lookup nodeId with
  | none => none
  | some node =>
    if node.next.isEmpty then
      none
    else if node.isBranchNode = false then
      node.next[0]?
    else if nodeId = "O5" then
      (if branchChoice = some BranchOption.DIAGONAL_A then some "A1" else some "O6")
    else if nodeId = "O10" then
      (if branchChoice = some BranchOption.DIAGONAL_B then some "B1" else some "O11")
    else if nodeId = "C" then
      (if branchChoice = some BranchOption.TO_O20 then some "B3" else some "A3")
    else
      node.next[0]?

/-- Result type of `traverseSteps`: a node id or the `'FINISHED'` sentinel. -/
inductive TraverseResult where
  | node (id : NodeId)
  | FINISHED
deriving DecidableEq, Repr

/-- The `while (remainingSteps > 0)` loop body of `traverseSteps`
(src/engine/board/index.ts): checks the terminal node `O20`, takes one step
(the branch choice is passed only on the first step), and decrements the
remaining step count. -/
def traverseLoop (current : NodeId) (remainingSteps : Nat)
    (branchChoice : Option BranchOption) (firstStep : Bool) : TraverseResult :=
  match remainingSteps with
  | 0 => TraverseResult.node current
  | n + 1 =>
    if current = "O20" then
      TraverseResult.FINISHED
    else
      match getNextNode current (if firstStep then branchChoice else none) with
      | none => TraverseResult.FINISHED
      | some next => traverseLoop next n branchChoice false

/-- `traverseSteps` from src/engine/board/index.ts.  The TS guard
`if (steps <= 0) return startNode` becomes the `steps = 0` case (steps is a
nonnegative count). -/
def traverseSteps (startNode : NodeId) (steps : Nat)
    (branchChoice : Option BranchOption) : TraverseResult :=
  if steps = 0 then TraverseResult.node startNode
  else traverseLoop startNode steps branchChoice true

/-! ## Stick sampling (src/engine/rng/index.ts) -/

/-- `StickFace` from src/engine/rng/index.ts. -/
inductive StickFace where
  | Front
  | Back
deriving DecidableEq, Repr

/-- `Stick` as in src/engine/content/sticks.ts (the `Stick` interface in
src/engine/rng/index.ts is the same minus `description`; `sampleStick` reads
only `backProbability`).  The TS float probability in `[0,1]` is embedded
as `ℚ`. -/
structure Stick where
  id : String
  name : String
  description : String
  backProbability : ℚ
deriving DecidableEq, Repr

/-- `BASIC_STICK` from src/engine/content/sticks.ts. -/
def BASIC_STICK : Stick :=
  { id := "basic"
  , name := "Basic Stick"
  , description := "A standard yut stick with balanced probabilities."
  , backProbability := 1 / 2 }

/-- `sampleStick` from src/engine/rng/index.ts, applied to one underlying
draw.  The TS stateful `rng: () => number` is modelled as the streamed draw
value handed to this call. -/
def sampleStick (stick : Stick) (draw : ℚ) : StickFace :=
  if draw < stick.backProbability then StickFace.Back else StickFace.Front

/-- The `for (const stick of sticks)` loop of `sample4Sticks`
(src/engine/rng/index.ts): one draw per stick, in stick order.  `draws` is
the stream of underlying `rng()` values and `k` the index of the next draw.
Returns the accumulated back count together with the next draw index. -/
def sample4SticksLoop (sticks : List Stick) (draws : Nat → ℚ) (k : Nat)
    (backCount : Nat) : Nat × Nat :=
  match sticks with
  | [] => (backCount, k)
  | stick :: rest =>
    sample4SticksLoop rest draws (k + 1)
      (if sampleStick stick (draws k) = StickFace.Back then backCount + 1 else backCount)

/-- `sample4Sticks` from src/engine/rng/index.ts.  Besides the back count it
returns the index of the next unconsumed draw, making draw consumption
observable; the length guard throws before any draw is consumed. -/
def sample4Sticks (sticks : List Stick) (draws : Nat → ℚ) (k : Nat) :
    Except String (Nat × Nat) :=
  if sticks.length ≠ 4 then Except.error "Must provide exactly 4 sticks"
  else Except.ok (sample4SticksLoop sticks draws k 0)

/-- `YutResult` from src/engine/state/index.ts. -/
inductive YutResult where
  | DO
  | GAE
  | GEOL
  | YUT
  | MO
deriving DecidableEq, Repr

/-- `grantsBonus` from src/engine/rng/index.ts. -/
def grantsBonus (result : YutResult) : Bool :=
  result = YutResult.YUT ∨ result = YutResult.MO

/-! ## Seed normalization (src/engine/state/seed.ts and
src/engine/rng/seeded.ts) -/

/-- The JavaScript `seed.trim()`: strip whitespace from both ends of the
string (embedded over the character list, so it evaluates by `rfl`). -/
def strTrim (s : String) : String :=
  String.mk (((s.toList.dropWhile Char.isWhitespace).reverse.dropWhile
    Char.isWhitespace).reverse)

/-- The character pool of `generateRandomSeed` in src/engine/state/seed.ts
(62 alphanumeric characters). -/
def seedChars : List Char :=
  "ABCDEFGHIJKLMNOPQRSTUVWXYZabcdefghijklmnopqrstuvwxyz0123456789".toList

/-- `generateRandomSeed` from src/engine/state/seed.ts.  The TS picks
`chars.charAt(Math.floor(Math.random() * chars.length))` per position; each
underlying draw `r ∈ [0,1)` determines the index `⌊r·62⌋ ∈ Fin 62`, so the
draw source is abstracted to the index function `pick`. -/
def generateRandomSeed (pick : Nat → Fin seedChars.length) (len : Nat) : String :=
  String.mk ((List.range len).map (fun i => seedChars.get (pick i)))

/-- `normalizeSeed` from src/engine/state/seed.ts (re-exported by
src/engine/state/index.ts and used by `initializeGameState`). -/
def normalizeSeed (pick : Nat → Fin seedChars.length) (seed : String) : String :=
  let trimmed := strTrim seed
  if trimmed.length > 0 then trimmed else generateRandomSeed pick 10

/-- The character pool of `generateRandomSeed` in src/engine/rng/seeded.ts
(36 lowercase alphanumeric characters). -/
def seededChars : List Char :=
  "abcdefghijklmnopqrstuvwxyz0123456789".toList

/-- `generateRandomSeed` (module-local) from src/engine/rng/seeded.ts: a
fixed 6-character seed, draws abstracted to indices as above. -/
def seededGenerateRandomSeed (pick : Nat → Fin seededChars.length) : String :=
  String.mk ((List.range 6).map (fun i => seededChars.get (pick i)))

/-- `normalizeSeed` from src/engine/rng/seeded.ts (used by the
`SeededRandom` constructor). -/
def seededNormalizeSeed (pick : Nat → Fin seededChars.length) (seed : String) : String :=
  let trimmed := strTrim seed
  if trimmed.length > 0 then trimmed else seededGenerateRandomSeed pick

/-! ## Reward system (src/engine/rewards/index.ts) -/

/-- `Artifact` from src/engine/rewards/index.ts. -/
structure Artifact where
  id : String
  name : String
  description : String
deriving DecidableEq, Repr

/-- `ARTIFACT_POOL` from src/engine/rewards/index.ts (10 fixed artifacts). -/
def ARTIFACT_POOL : List Artifact :=
  [ ⟨"artifact-1", "행운의 윷가락", "다음 던지기에서 윷이나 모가 나올 확률이 증가합니다."⟩
  , ⟨"artifact-2", "빠른 발걸음", "모든 이동에 +1 보너스를 받습니다."⟩
  , ⟨"artifact-3", "신중한 선택", "분기점에서 선택을 취소하고 다시 선택할 수 있습니다."⟩
  , ⟨"artifact-4", "중앙의 축복", "중앙에 도착하면 추가로 한 번 더 던질 수 있습니다."⟩
  , ⟨"artifact-5", "완주의 기쁨", "말이 완주할 때마다 체력이 회복됩니다."⟩
  , ⟨"artifact-6", "대각선의 달인", "대각선 경로에서 이동 시 보너스를 받습니다."⟩
  , ⟨"artifact-7", "집결의 힘", "업힌 말의 수에 비례하여 특수 효과가 발동합니다."⟩
  , ⟨"artifact-8", "재도전의 기회", "턴당 한 번, 던지기 결과를 다시 던질 수 있습니다."⟩
  , ⟨"artifact-9", "전략가의 혜안", "다음 3번의 던지기 결과를 미리 볼 수 있습니다."⟩
  , ⟨"artifact-10", "마지막 질주", "O15 이후 구간에서 이동 속도가 2배가 됩니다."⟩
  ]

/-- The destructuring swap `[a[i], a[j]] = [a[j], a[i]]` used by the
Fisher-Yates loops.  Indices produced by in-range draws are always valid;
out-of-range indices leave the list unchanged. -/
def listSwap {α : Type} (l : List α) (i j : Nat) : List α :=
  match l[i]?, l[j]? with
  | some a, some b => (l.set i b).set j a
  | _, _ => l

/-- The `for (let i = shuffled.length - 1; i > 0; i--)` Fisher-Yates loop of
`generateArtifactCandidates` (src/engine/rewards/index.ts).  `draw` is the
stream of `rng()` values (consumed in call order starting at index `k`) and
`i` the current loop counter; `j = ⌊draw·(i+1)⌋`. -/
def fisherYatesLoop (draw : Nat → ℚ) (k : Nat) (l : List Artifact) :
    Nat → List Artifact
  | 0 => l
  | i + 1 =>
    let j := (Int.floor (draw k * (i + 1 + 1 : ℚ))).toNat
    fisherYatesLoop draw (k + 1) (listSwap l (i + 1) j) i

/-- `generateArtifactCandidates` from src/engine/rewards/index.ts.  The TS
guard `count <= 0` is the `count = 0` case (count is a nonnegative count);
the clamp `count > pool.length → count = pool.length` precedes the
shuffle-and-slice. -/
def generateArtifactCandidates (count : Nat) (draw : Nat → ℚ) : List Artifact :=
  if count = 0 then []
  else
    let c := if ARTIFACT_POOL.length < count then ARTIFACT_POOL.length else count
    (fisherYatesLoop draw 0 ARTIFACT_POOL (ARTIFACT_POOL.length - 1)).take c

/-! ## Game state (src/engine/state/index.ts) -/

/-- `GamePhase` from src/engine/state/index.ts. -/
inductive GamePhase where
  | THROW
  | PLAY
  | REWARD
  | GAME_OVER
deriving DecidableEq, Repr

/-- `PieceState` from src/engine/state/index.ts. -/
inductive PieceState where
  | HOME
  | ON_BOARD
  | FINISHED
deriving DecidableEq, Repr

/-- `HandToken` from src/engine/state/index.ts. -/
structure HandToken where
  result : YutResult
  steps : Nat
deriving DecidableEq, Repr

/-- `Piece` from src/engine/state/index.ts (`position` is `null` at HOME or
FINISHED). -/
structure Piece where
  id : Nat
  state : PieceState
  position : Option NodeId
deriving DecidableEq, Repr

/-- `Stack` from src/engine/state/index.ts. -/
structure Stack where
  id : String
  pieceIds : List Nat
  position : NodeId
deriving DecidableEq, Repr

/-- `SpecialNodeType` from src/engine/board/index.ts. -/
inductive SpecialNodeType where
  | NORMAL
  | STICK
  | REFRESH
deriving DecidableEq, Repr

/-- The `pendingReward` record of `GameState`. -/
structure PendingReward where
  stackSize : Nat
  candidates : List Artifact
deriving DecidableEq, Repr

/-- The `pendingStickOffer` record of `GameState`. -/
structure StickOffer where
  offeredStick : Stick
deriving DecidableEq, Repr

/-- `GameState` from src/engine/state/index.ts.  The TS
`stickInventory: [Stick, Stick, Stick, Stick]` 4-tuple is embedded as a
list, and the `specialNodes` record as an association list. -/
structure GameState where
  phase : GamePhase
  turn : Nat
  seed : String
  throwsRemaining : Nat
  hand : List HandToken
  pieces : List Piece
  «stacks» : List Stack
  artifacts : List Artifact
  stickInventory : List Stick
  specialNodes : List (NodeId × SpecialNodeType)
  selectedNodeId : Option NodeId
  selectedTokenIndex : Option Nat
  pendingReward : Option PendingReward
  pendingStickOffer : Option StickOffer
deriving DecidableEq, Repr

/-- `getHomePieces` from src/engine/state/index.ts. -/
def getHomePieces (state : GameState) : List Piece :=
  state.pieces.filter (fun p => decide (p.state = PieceState.HOME))

/-- `getFinishedCount` from src/engine/state/index.ts. -/
def getFinishedCount (state : GameState) : Nat :=
  (state.pieces.filter (fun p => decide (p.state = PieceState.FINISHED))).length

/-- `isGameOver` from src/engine/state/index.ts. -/
def isGameOver (state : GameState) : Bool :=
  getFinishedCount state = 4

/-- `findStackAtPosition` from src/engine/state/index.ts (`Stack | null`
becomes `Option Stack`). -/
def findStackAtPosition (state : GameState) (position : NodeId) : Option Stack :=
  state.stacks.find? (fun s => s.position == position)

/-- `mergeStacks` from src/engine/state/index.ts. -/
def mergeStacks (state : GameState) (stackId1 stackId2 : String) :
    Except String GameState :=
  match state.stacks.find? (fun s => s.id == stackId1),
        state.stacks.find? (fun s => s.id == stackId2) with
  | some stack1, some stack2 =>
    if stack1.position ≠ stack2.position then
      Except.error "Cannot merge: stacks not at same position"
    else
      let mergedStack : Stack := { stack1 with pieceIds := stack1.pieceIds ++ stack2.pieceIds }
      Except.ok { state with
        «stacks» := (state.stacks.filter (fun s => s.id != stackId2)).map
          (fun s => if s.id == stackId1 then mergedStack else s) }
  | _, _ => Except.error "Cannot merge: stack not found"

/-- `spawnPieceFromHome` from src/engine/state/index.ts.  The TS generates
the fresh stack id as `` `stack-${Date.now()}-${Math.random()}` ``; that
ambient-generated id is taken here as the `newStackId` parameter. -/
def spawnPieceFromHome (newStackId : String) (state : GameState)
    (finalPosition : NodeId) : Except String GameState :=
  match getHomePieces state with
  | [] => Except.error "No pieces at HOME to spawn"
  | pieceToSpawn :: _ =>
    let newStack : Stack := { id := newStackId, pieceIds := [pieceToSpawn.id], position := finalPosition }
    let updatedPieces := state.pieces.map (fun p =>
      if p.id == pieceToSpawn.id then
        { p with state := PieceState.ON_BOARD, position := some finalPosition }
      else p)
    Except.ok { state with pieces := updatedPieces, «stacks» := state.stacks ++ [newStack] }

/-- `moveStack` from src/engine/state/index.ts. -/
def moveStack (state : GameState) (stackId : String) (newPosition : NodeId) :
    Except String GameState :=
  match state.stacks.find? (fun s => s.id == stackId) with
  | none => Except.error "Stack not found"
  | some stack =>
    let updatedStack : Stack := { stack with position := newPosition }
    let updatedPieces := state.pieces.map (fun p =>
      if stack.pieceIds.contains p.id then { p with position := some newPosition } else p)
    Except.ok { state with
      «stacks» := state.stacks.map (fun s => if s.id == stackId then updatedStack else s)
      pieces := updatedPieces }

/-- `finishStack` from src/engine/state/index.ts. -/
def finishStack (state : GameState) (stackId : String) : Except String GameState :=
  match state.stacks.find? (fun s => s.id == stackId) with
  | none => Except.error "Stack not found"
  | some stack =>
    let updatedPieces := state.pieces.map (fun p =>
      if stack.pieceIds.contains p.id then
        { p with state := PieceState.FINISHED, position := none }
      else p)
    Except.ok { state with
      «stacks» := state.stacks.filter (fun s => s.id != stackId)
      pieces := updatedPieces }

/-- `initializeGameState` from src/engine/state/index.ts, in the
string-seed form used by the reducer's `NEW_GAME` (so `specialNodes`
defaults to the empty record).  `pick` abstracts the `Math.random()` draws
that `normalizeSeed` may consume. -/
def initializeGameState (pick : Nat → Fin seedChars.length) (seed : String) : GameState :=
  { phase := GamePhase.THROW
  , turn := 1
  , seed := normalizeSeed pick seed
  , throwsRemaining := 1
  , hand := []
  , pieces :=
      [ ⟨0, PieceState.HOME, none⟩
      , ⟨1, PieceState.HOME, none⟩
      , ⟨2, PieceState.HOME, none⟩
      , ⟨3, PieceState.HOME, none⟩ ]
  , «stacks» := []
  , artifacts := []
  , stickInventory := [BASIC_STICK, BASIC_STICK, BASIC_STICK, BASIC_STICK]
  , specialNodes := []
  , selectedNodeId := none
  , selectedTokenIndex := none
  , pendingReward := none
  , pendingStickOffer := none }

/-! ## Movement rules (src/engine/rules/index.ts) -/

/-- The `type` discriminant of `MoveTarget`. -/
inductive MoveTargetType where
  | HOME
  | STACK
deriving DecidableEq, Repr

/-- `MoveTarget` from src/engine/rules/index.ts (`stackId?` optional). -/
structure MoveTarget where
  type : MoveTargetType
  stackId : Option String
deriving DecidableEq, Repr

/-- `executeMove` from src/engine/rules/index.ts.  `newStackId` is the
ambient-generated fresh stack id used if a piece is spawned from HOME.  The
TS reads the spawned stack as `stacks[stacks.length - 1]`, embedded as
`getLast?`; the `none` fallbacks of `getLast?`/`find?` after a successful
spawn/move are unreachable (the TS would crash on `undefined` there). -/
def executeMove (newStackId : String) (state : GameState) (target : MoveTarget)
    (steps : Nat) (branchChoice : Option BranchOption) : Except String GameState :=
  match target.type with
  | MoveTargetType.HOME =>
    match traverseSteps "O0" steps branchChoice with
    | TraverseResult.FINISHED =>
      match spawnPieceFromHome newStackId state "O20" with
      | Except.error e => Except.error e
      | Except.ok st1 =>
        match st1.stacks.getLast? with
        | none => Except.error "Stack not found"
        | some spawnedStack => finishStack st1 spawnedStack.id
    | TraverseResult.node finalPos =>
      match spawnPieceFromHome newStackId state finalPos with
      | Except.error e => Except.error e
      | Except.ok st1 =>
        match st1.stacks.getLast? with
        | none => Except.error "Stack not found"
        | some spawnedStack =>
          match findStackAtPosition
              { st1 with «stacks» := st1.stacks.filter (fun s => s.id != spawnedStack.id) }
              finalPos with
          | some existingStack => mergeStacks st1 existingStack.id spawnedStack.id
          | none => Except.ok st1
  | MoveTargetType.STACK =>
    match target.stackId with
    | none => Except.error "Stack ID required for STACK move"
    | some stackId =>
      match state.stacks.find? (fun s => s.id == stackId) with
      | none => Except.error "Stack not found"
      | some stack =>
        match traverseSteps stack.position steps branchChoice with
        | TraverseResult.FINISHED => finishStack state stack.id
        | TraverseResult.node finalPos =>
          match moveStack state stack.id finalPos with
          | Except.error e => Except.error e
          | Except.ok st1 =>
            match st1.stacks.find? (fun s => s.id == stack.id) with
            | none => Except.error "Moved stack not found"
            | some movedStack =>
              match findStackAtPosition
                  { st1 with «stacks» := st1.stacks.filter (fun s => s.id != stack.id) }
                  finalPos with
              | some existingStack => mergeStacks st1 existingStack.id movedStack.id
              | none => Except.ok st1

/-! ## Reducer (src/engine/state/reducer.ts) -/

/-- `GameAction` from src/engine/state/reducer.ts. -/
inductive GameAction where
  | NEW_GAME (seed : Option String)
  | SET_PHASE (phase : GamePhase)
  | INCREMENT_TURN
  | END_TURN
  | SET_SELECTED_NODE (nodeId : Option NodeId)
  | SET_SELECTED_TOKEN (tokenIndex : Option Nat)
  | ADD_HAND_TOKEN (token : HandToken)
  | REMOVE_HAND_TOKEN (index : Nat)
  | SET_THROWS_REMAINING (count : Nat)
  | DECREMENT_THROWS_REMAINING
  | INCREMENT_THROWS_REMAINING
  | THROW_YUT (token : HandToken)
  | EXECUTE_MOVE (tokenIndex : Nat) (target : MoveTarget) (branchChoice : Option BranchOption)
deriving DecidableEq, Repr

/-- The index filter `hand.filter((_, i) => i !== index)` used by
`REMOVE_HAND_TOKEN` and `EXECUTE_MOVE` in src/engine/state/reducer.ts. -/
def removeAtIndex {α : Type} (l : List α) (index : Nat) : List α :=
  (l.enum.filter (fun p => p.1 != index)).map (fun p => p.2)

/-- `gameReducer` from src/engine/state/reducer.ts.  `pick` abstracts the
`Math.random()` draws consumed by `NEW_GAME`'s seed normalization and
`newStackId` the ambient-generated stack id used if `EXECUTE_MOVE` spawns a
piece.  TS `throw` statements become `Except.error`; the in-range token
access `state.hand[tokenIndex]` after the explicit range check is the
guarded `get`.  `Math.max(0, throwsRemaining - 1)` on the nonnegative
counter is truncated subtraction. -/
def gameReducer (pick : Nat → Fin seedChars.length) (newStackId : String)
    (state : GameState) (action : GameAction) : Except String GameState :=
  match action with
  | GameAction.NEW_GAME seed =>
    Except.ok (initializeGameState pick (seed.getD ""))
  | GameAction.SET_PHASE phase =>
    Except.ok { state with phase := phase }
  | GameAction.INCREMENT_TURN =>
    Except.ok { state with turn := state.turn + 1 }
  | GameAction.END_TURN =>
    Except.ok { state with
      phase := GamePhase.THROW
      turn := state.turn + 1
      throwsRemaining := 1
      hand := []
      selectedNodeId := none
      selectedTokenIndex := none }
  | GameAction.SET_SELECTED_NODE nodeId =>
    Except.ok { state with selectedNodeId := nodeId }
  | GameAction.SET_SELECTED_TOKEN tokenIndex =>
    Except.ok { state with selectedTokenIndex := tokenIndex }
  | GameAction.ADD_HAND_TOKEN token =>
    Except.ok { state with hand := state.hand ++ [token] }
  | GameAction.REMOVE_HAND_TOKEN index =>
    Except.ok { state with hand := removeAtIndex state.hand index }
  | GameAction.SET_THROWS_REMAINING count =>
    Except.ok { state with throwsRemaining := count }
  | GameAction.DECREMENT_THROWS_REMAINING =>
    Except.ok { state with throwsRemaining := state.throwsRemaining - 1 }
  | GameAction.INCREMENT_THROWS_REMAINING =>
    Except.ok { state with throwsRemaining := state.throwsRemaining + 1 }
  | GameAction.THROW_YUT token =>
    let newHand := state.hand ++ [token]
    let newThrowsRemaining := state.throwsRemaining - 1
    let bonus : Bool := token.result = YutResult.YUT ∨ token.result = YutResult.MO
    Except.ok { state with
      hand := newHand
      throwsRemaining := if bonus then newThrowsRemaining + 1 else newThrowsRemaining }
  | GameAction.EXECUTE_MOVE tokenIndex target branchChoice =>
    if h : tokenIndex < state.hand.length then
      let token := state.hand.get ⟨tokenIndex, h⟩
      match executeMove newStackId state target token.steps branchChoice with
      | Except.error e => Except.error e
      | Except.ok moved =>
        let newState : GameState := { moved with
          hand := removeAtIndex moved.hand tokenIndex
          selectedTokenIndex := none
          selectedNodeId := none }
        if isGameOver newState then
          Except.ok { newState with phase := GamePhase.GAME_OVER }
        else if newState.hand.length = 0 then
          Except.ok { newState with
            phase := GamePhase.THROW
            turn := newState.turn + 1
            throwsRemaining := 1 }
        else
          Except.ok newState
    else
      Except.error "Invalid token index"

/-! ## Concrete data used by witnesses and counterexamples -/

/-- A draw-index function that always picks the first seed character. -/
def pickZero : Nat → Fin seedChars.length := fun _ => ⟨0, by decide⟩

/-- A draw-index function for the seeded-RNG character pool. -/
def pickZero36 : Nat → Fin seededChars.length := fun _ => ⟨0, by decide⟩

/-- The constant-zero draw stream. -/
def zeroDraw : Nat → ℚ := fun _ => 0

/-- Whether an `Except` result is a success. -/
def exceptIsOk {ε α : Type} : Except ε α → Bool :=
  fun e => match e with
  | Except.ok _ => true
  | Except.error _ => false

/-- The game-state fields that the stack operations and `executeMove` leave
untouched (phase, turn, hand, throwsRemaining) together with the piece
count, used to relate a move's output state to its input state. -/
def FieldsEq (a b : GameState) : Prop :=
  a.phase = b.phase ∧ a.turn = b.turn ∧ a.hand = b.hand
    ∧ a.throwsRemaining = b.throwsRemaining
    ∧ a.pieces.length = b.pieces.length

/-- A game state in the PLAY phase with no throws remaining (used to probe
the reducer's phase handling). -/
def statePlayNoThrows : GameState :=
  { initializeGameState pickZero "s" with phase := GamePhase.PLAY, throwsRemaining := 0 }

/-- A game state in the THROW phase holding one DO token (used to probe
dispatching `EXECUTE_MOVE` outside the PLAY phase). -/
def stateThrowWithToken : GameState :=
  { initializeGameState pickZero "s" with hand := [⟨YutResult.DO, 1⟩] }

/-- A game state with one single-piece stack (`"sidA"`) at O5 and the other
three pieces at HOME (used to exercise the auto-merge on spawning). -/
def stateWithStackO5 : GameState :=
  { initializeGameState pickZero "s" with
    pieces :=
      [ ⟨0, PieceState.ON_BOARD, some "O5"⟩
      , ⟨1, PieceState.HOME, none⟩
      , ⟨2, PieceState.HOME, none⟩
      , ⟨3, PieceState.HOME, none⟩ ]
    «stacks» := [⟨"sidA", [0], "O5"⟩] }

/-- The state produced from `stateWithStackO5` by spawning piece 1 from HOME
with a 5-step move: it lands on the occupied node O5 and merges into the
stack `"sidA"`. -/
def movedMergeO5 : GameState :=
  { stateWithStackO5 with
    pieces :=
      [ ⟨0, PieceState.ON_BOARD, some "O5"⟩
      , ⟨1, PieceState.ON_BOARD, some "O5"⟩
      , ⟨2, PieceState.HOME, none⟩
      , ⟨3, PieceState.HOME, none⟩ ]
    «stacks» := [⟨"sidA", [0, 1], "O5"⟩] }

/-- The state produced by spawning the first piece of `stateThrowWithToken`
from HOME to O1 with a 1-step move (stack id `"nsid"`). -/
def movedSpawnO1 : GameState :=
  { stateThrowWithToken with
    pieces :=
      [ ⟨0, PieceState.ON_BOARD, some "O1"⟩
      , ⟨1, PieceState.HOME, none⟩
      , ⟨2, PieceState.HOME, none⟩
      , ⟨3, PieceState.HOME, none⟩ ]
    «stacks» := [⟨"nsid", [0], "O1"⟩] }

/-! ## Claims about the board traversal -/

/-- C1: `traverseSteps` implements the overshoot rule: landing exactly on the
terminal node O20 does not finish (`traverseSteps "O19" 1` returns `O20`),
while any move whose first step starts at O20 returns FINISHED, any traversal
that reaches O20 with steps still remaining returns FINISHED (the loop at O20
with a positive remaining-step count), and `traverseSteps "O19" 2` returns
FINISHED. -/
theorem C1_overshoot_rule :
    (∀ bc, traverseSteps "O19" 1 bc = TraverseResult.node "O20")
    ∧ (∀ steps bc, 1 ≤ steps → traverseSteps "O20" steps bc = TraverseResult.FINISHED)
    ∧ (∀ n bc first, traverseLoop "O20" (n + 1) bc first = TraverseResult.FINISHED)
    ∧ (∀ bc, traverseSteps "O19" 2 bc = TraverseResult.FINISHED) := by
  refine ⟨fun bc => rfl, ?_, fun n bc first => rfl, fun bc => rfl⟩
  intro steps bc h
  match steps, h with
  | n + 1, _ => rfl

/-- Witness for C1 at concrete inputs. -/
theorem C1_overshoot_rule_witness :
    traverseSteps "O19" 1 none = TraverseResult.node "O20"
    ∧ traverseSteps "O20" 1 none = TraverseResult.FINISHED
    ∧ traverseSteps "O19" 2 none = TraverseResult.FINISHED :=
  ⟨C1_overshoot_rule.1 none, C1_overshoot_rule.2.1 1 none (by decide),
    C1_overshoot_rule.2.2.2 none⟩

/-- C6 counterexample: contrary to the claim that `getNextNode "C"` with no
branch choice does not assume a default successor, the code returns the
default successor `A3`. -/
theorem C6_counterexample : getNextNode "C" none = some "A3" := by decide

/-- C6 (amended): at every branch node `getNextNode` with no choice supplied
falls back to a default successor: the outer-ring successor at O5 and O10,
and `A3` (the TO_O15 direction) at the center junction C; an explicit
TO_O20 choice at C selects `B3`. -/
theorem C6_amended_default_branch :
    getNextNode "C" none = some "A3"
    ∧ getNextNode "C" (some BranchOption.TO_O20) = some "B3"
    ∧ getNextNode "C" (some BranchOption.TO_O15) = some "A3"
    ∧ getNextNode "O5" none = some "O6"
    ∧ getNextNode "O10" none = some "O11" := by decide

/-- C10: for every node id that is not a key of the board graph, any steps
count of at least 1 and any branch choice, `getNextNode` returns `none` and
`traverseSteps` is total and returns FINISHED, so an unknown start node
behaves like the terminal node. -/
theorem C10_unknown_start_finishes (nid : NodeId)
    (h : BOARD_GRAPH.lookup nid = none) (steps : Nat) (hs : 1 ≤ steps)
    (bc : Option BranchOption) :
    getNextNode nid bc = none ∧ traverseSteps nid steps bc = TraverseResult.FINISHED := by
  have hg : getNextNode nid bc = none := by
    unfold getNextNode
    rw [h]
  have hne : nid ≠ "O20" := by
    rintro rfl
    exact absurd h (by decide)
  refine ⟨hg, ?_⟩
  match steps, hs with
  | n + 1, _ =>
    unfold traverseSteps traverseLoop
    simp [hne, hg]

/-- Witness for C10 at the concrete unknown node id `"X1"`. -/
theorem C10_unknown_start_finishes_witness :
    getNextNode "X1" none = none
    ∧ traverseSteps "X1" 1 none = TraverseResult.FINISHED :=
  C10_unknown_start_finishes "X1" (by decide) 1 (by decide) none

/-! ## Claims about the reducer's THROW_YUT and phase handling -/

/-- C4: in the THROW phase with throwsRemaining > 0, `THROW_YUT token`
appends the token to the hand and leaves throwsRemaining unchanged (net 0:
decrement floored at 0, then increment) when the token's result grants a
bonus (YUT or MO), and decrements it by 1 otherwise. -/
theorem C4_throw_yut_bonus (pick : Nat → Fin seedChars.length) (sid : String)
    (state : GameState) (token : HandToken)
    (hphase : state.phase = GamePhase.THROW)
    (hthrows : 0 < state.throwsRemaining) :
    gameReducer pick sid state (GameAction.THROW_YUT token)
      = Except.ok { state with
          hand := state.hand ++ [token]
          throwsRemaining :=
            if grantsBonus token.result then state.throwsRemaining
            else state.throwsRemaining - 1 } := by
  simp only [gameReducer, grantsBonus]
  rw [Nat.sub_add_cancel hthrows]

/-- Witness for C4 on a freshly initialized state (THROW phase, one throw
remaining) and a DO token. -/
theorem C4_throw_yut_bonus_witness :
    gameReducer pickZero "x" (initializeGameState pickZero "s")
        (GameAction.THROW_YUT ⟨YutResult.DO, 1⟩)
      = Except.ok { initializeGameState pickZero "s" with
          hand := (initializeGameState pickZero "s").hand ++ [⟨YutResult.DO, 1⟩]
          throwsRemaining :=
            if grantsBonus YutResult.DO then
              (initializeGameState pickZero "s").throwsRemaining
            else (initializeGameState pickZero "s").throwsRemaining - 1 } :=
  C4_throw_yut_bonus pickZero "x" (initializeGameState pickZero "s")
    ⟨YutResult.DO, 1⟩ rfl (by decide)

/-- C5 counterexample: dispatching THROW_YUT in the PLAY phase with
throwsRemaining = 0 does not raise: the reducer silently returns a modified
state (token appended, decrement floored at 0), and dispatching EXECUTE_MOVE
in the THROW phase with a valid token index succeeds rather than raising. -/
theorem C5_counterexample :
    gameReducer pickZero "x" statePlayNoThrows (GameAction.THROW_YUT ⟨YutResult.DO, 1⟩)
      = Except.ok { statePlayNoThrows with hand := [⟨YutResult.DO, 1⟩] }
    ∧ statePlayNoThrows.phase = GamePhase.PLAY
    ∧ statePlayNoThrows.throwsRemaining = 0
    ∧ { statePlayNoThrows with hand := [(⟨YutResult.DO, 1⟩ : HandToken)] } ≠ statePlayNoThrows
    ∧ exceptIsOk (gameReducer pickZero "nsid" stateThrowWithToken
        (GameAction.EXECUTE_MOVE 0 ⟨MoveTargetType.HOME, none⟩ none)) = true
    ∧ stateThrowWithToken.phase = GamePhase.THROW := by
  refine ⟨rfl, rfl, rfl, ?_, rfl, rfl⟩
  intro hcontra
  have : ({ statePlayNoThrows with
      hand := [(⟨YutResult.DO, 1⟩ : HandToken)] } : GameState).hand
      = statePlayNoThrows.hand := by rw [hcontra]
  simp [statePlayNoThrows, initializeGameState] at this

/-- C5 (amended): the reducer raises only for out-of-range indices, never
for wrong-phase dispatch: THROW_YUT always succeeds, appending the token
with the floored decrement (and bonus re-increment), regardless of phase
and of throwsRemaining; EXECUTE_MOVE with an out-of-range token index
raises "Invalid token index"; and EXECUTE_MOVE dispatched outside the PLAY
phase with an in-range token and a successful move succeeds rather than
raising.  Phase preconditions are enforced by the explicit transition
helpers and the UI, not by the reducer. -/
theorem C5_amended_no_phase_errors :
    (∀ pick sid state token,
      gameReducer pick sid state (GameAction.THROW_YUT token)
        = Except.ok { state with
            hand := state.hand ++ [token]
            throwsRemaining :=
              if grantsBonus token.result then state.throwsRemaining - 1 + 1
              else state.throwsRemaining - 1 })
    ∧ (∀ pick sid state tokenIndex target bc, state.hand.length ≤ tokenIndex →
        gameReducer pick sid state (GameAction.EXECUTE_MOVE tokenIndex target bc)
          = Except.error "Invalid token index")
    ∧ (∀ pick sid state tokenIndex target bc moved (h : tokenIndex < state.hand.length),
        state.phase ≠ GamePhase.PLAY →
        executeMove sid state target (state.hand.get ⟨tokenIndex, h⟩).steps bc
          = Except.ok moved →
        exceptIsOk (gameReducer pick sid state
          (GameAction.EXECUTE_MOVE tokenIndex target bc)) = true) := by
  refine ⟨fun pick sid state token => rfl, ?_, ?_⟩
  · intro pick sid state tokenIndex target bc hle
    simp only [gameReducer]
    rw [dif_neg (by omega)]
  · intro pick sid state tokenIndex target bc moved h hphase hmv
    simp only [gameReducer]
    rw [dif_pos h, hmv]
    split
    · simp_all
    · split
      · rfl
      · split <;> rfl

/-- Witness for C5 (amended): out-of-range EXECUTE_MOVE on the initial
state raises, and THROW_YUT on the PLAY-phase zero-throws state succeeds. -/
theorem C5_amended_no_phase_errors_witness :
    gameReducer pickZero "x" (initializeGameState pickZero "s")
        (GameAction.EXECUTE_MOVE 3 ⟨MoveTargetType.HOME, none⟩ none)
      = Except.error "Invalid token index"
    ∧ gameReducer pickZero "x" statePlayNoThrows (GameAction.THROW_YUT ⟨YutResult.GAE, 2⟩)
      = Except.ok { statePlayNoThrows with
          hand := statePlayNoThrows.hand ++ [⟨YutResult.GAE, 2⟩]
          throwsRemaining :=
            if grantsBonus YutResult.GAE then statePlayNoThrows.throwsRemaining - 1 + 1
            else statePlayNoThrows.throwsRemaining - 1 } :=
  ⟨C5_amended_no_phase_errors.2.1 pickZero "x" (initializeGameState pickZero "s")
      3 ⟨MoveTargetType.HOME, none⟩ none (by decide),
    C5_amended_no_phase_errors.1 pickZero "x" statePlayNoThrows ⟨YutResult.GAE, 2⟩⟩

/-! ## Claims about seed normalization -/

/-- C7 counterexample: the claim asserts a fixed generated length of 10 for
`normalizeSeed`, but the copy in src/engine/rng/seeded.ts generates a
6-character seed on whitespace-only input. -/
theorem C7_counterexample :
    (seededNormalizeSeed pickZero36 "   ").length = 6 ∧ (6 : Nat) ≠ 10 := by
  exact ⟨rfl, by decide⟩

/-- C7 (amended): both `normalizeSeed` functions trim whitespace and return
the trimmed string when it is non-empty; on input whose trimmed result is
empty, the state/seed version returns a freshly generated alphanumeric seed
of fixed length 10, while the rng/seeded version returns one of fixed
length 6. -/
theorem C7_amended_normalize_seed :
    (∀ pick seed, strTrim seed ≠ "" → normalizeSeed pick seed = strTrim seed)
    ∧ (∀ pick seed, strTrim seed = "" →
        (normalizeSeed pick seed).length = 10
        ∧ ∀ c ∈ (normalizeSeed pick seed).toList, c ∈ seedChars)
    ∧ (∀ pick2 seed, strTrim seed ≠ "" → seededNormalizeSeed pick2 seed = strTrim seed)
    ∧ (∀ pick2 seed, strTrim seed = "" →
        (seededNormalizeSeed pick2 seed).length = 6
        ∧ ∀ c ∈ (seededNormalizeSeed pick2 seed).toList, c ∈ seededChars) := by
  have hpos : ∀ s : String, s ≠ "" → 0 < s.length := by
    intro s hs
    rcases s with ⟨data⟩
    cases data with
    | nil => exact absurd rfl hs
    | cons c cs => simp [String.length]
  refine ⟨?_, ?_, ?_, ?_⟩
  · intro pick seed h
    unfold normalizeSeed
    simp [hpos _ h]
  · intro pick seed h
    unfold normalizeSeed
    rw [h]
    constructor
    · rfl
    · intro c hc
      simp only [generateRandomSeed, String.toList] at hc
      obtain ⟨i, _, rfl⟩ := List.mem_map.1 hc
      exact List.get_mem _ _ _
  · intro pick2 seed h
    unfold seededNormalizeSeed
    simp [hpos _ h]
  · intro pick2 seed h
    unfold seededNormalizeSeed
    rw [h]
    constructor
    · rfl
    · intro c hc
      simp only [seededGenerateRandomSeed, String.toList] at hc
      obtain ⟨i, _, rfl⟩ := List.mem_map.1 hc
      exact List.get_mem _ _ _

/-- Witness for C7 (amended) at `"  abc  "` and `"   "`. -/
theorem C7_amended_normalize_seed_witness :
    normalizeSeed pickZero "  abc  " = strTrim "  abc  "
    ∧ (normalizeSeed pickZero "   ").length = 10
    ∧ (seededNormalizeSeed pickZero36 "   ").length = 6 :=
  ⟨C7_amended_normalize_seed.1 pickZero "  abc  " (by decide),
    (C7_amended_normalize_seed.2.1 pickZero "   " (by decide)).1,
    (C7_amended_normalize_seed.2.2.2 pickZero36 "   " (by decide)).1⟩

/-! ## Claims about stick sampling -/

/-- C8: for a list of exactly 4 sticks, `sample4Sticks` consumes exactly 4
draws, one per stick in stick order without short-circuiting (the returned
next-draw index is the start index plus 4, and the back count is the number
of the four consecutive draws that satisfied draw < backProbability, a value
at most 4); for any list whose length is not 4 it raises without consuming
any draws. -/
theorem C8_sample4_draw_contract :
    (∀ s0 s1 s2 s3 : Stick, ∀ draws : Nat → ℚ, ∀ k : Nat,
      sample4Sticks [s0, s1, s2, s3] draws k =
        Except.ok
          ((((if draws k < s0.backProbability then 1 else 0)
              + (if draws (k + 1) < s1.backProbability then 1 else 0))
              + (if draws (k + 2) < s2.backProbability then 1 else 0))
              + (if draws (k + 3) < s3.backProbability then 1 else 0),
            k + 4))
    ∧ (∀ sticks draws k c k2,
        sample4Sticks sticks draws k = Except.ok (c, k2) → c ≤ 4 ∧ k2 = k + 4)
    ∧ (∀ sticks (draws : Nat → ℚ) k, sticks.length ≠ 4 →
        sample4Sticks sticks draws k = Except.error "Must provide exactly 4 sticks") := by
  have hloop : ∀ (st : Stick) (d : ℚ) (n : Nat),
      (if sampleStick st d = StickFace.Back then n + 1 else n)
        = n + (if d < st.backProbability then 1 else 0) := by
    intro st d n
    unfold sampleStick
    split <;> simp
  have hmain : ∀ s0 s1 s2 s3 : Stick, ∀ draws : Nat → ℚ, ∀ k : Nat,
      sample4Sticks [s0, s1, s2, s3] draws k =
        Except.ok
          ((((if draws k < s0.backProbability then 1 else 0)
              + (if draws (k + 1) < s1.backProbability then 1 else 0))
              + (if draws (k + 2) < s2.backProbability then 1 else 0))
              + (if draws (k + 3) < s3.backProbability then 1 else 0),
            k + 4) := by
    intro s0 s1 s2 s3 draws k
    simp only [sample4Sticks, sample4SticksLoop, List.length_cons, List.length_nil, hloop]
    norm_num [Nat.add_assoc]
  refine ⟨hmain, ?_, ?_⟩
  · intro sticks draws k c k2 h
    by_cases hl : sticks.length = 4
    · match sticks, hl with
      | [s0, s1, s2, s3], _ =>
        rw [hmain s0 s1 s2 s3 draws k] at h
        injection h with h
        injection h with h1 h2
        subst h1 h2
        refine ⟨?_, rfl⟩
        split_ifs <;> omega
    · unfold sample4Sticks at h
      rw [if_pos hl] at h
      cases h
  · intro sticks draws k hl
    unfold sample4Sticks
    rw [if_pos hl]

/-- Witness for C8: four basic sticks with a concrete draw stream, and a
wrong-length stick list. -/
theorem C8_sample4_draw_contract_witness :
    sample4Sticks [BASIC_STICK, BASIC_STICK, BASIC_STICK, BASIC_STICK] zeroDraw 7 =
      Except.ok
        ((((if zeroDraw 7 < BASIC_STICK.backProbability then 1 else 0)
            + (if zeroDraw 8 < BASIC_STICK.backProbability then 1 else 0))
            + (if zeroDraw 9 < BASIC_STICK.backProbability then 1 else 0))
            + (if zeroDraw 10 < BASIC_STICK.backProbability then 1 else 0),
          11)
    ∧ sample4Sticks [BASIC_STICK] zeroDraw 0
        = Except.error "Must provide exactly 4 sticks" :=
  ⟨C8_sample4_draw_contract.1 BASIC_STICK BASIC_STICK BASIC_STICK BASIC_STICK zeroDraw 7,
    C8_sample4_draw_contract.2.2 [BASIC_STICK] zeroDraw 0 (by decide)⟩

/-! ## Claims about the reward-candidate generator -/

theorem nodup_artifact_pool_ids : (ARTIFACT_POOL.map Artifact.id).Nodup := by decide

theorem cons_get_set_perm {α : Type} (t : List α) (k : Nat) (x : α) (hk : k < t.length) :
    List.Perm (t.get ⟨k, hk⟩ :: t.set k x) (x :: t) := by
  induction t generalizing k with
  | nil => simp at hk
  | cons a t ih =>
    cases k with
    | zero =>
      simpa using List.Perm.swap x a t
    | succ k =>
      have hk2 : k < t.length := by simpa using hk
      simp only [List.get, List.set]
      refine List.Perm.trans (List.Perm.swap a (t.get ⟨k, hk2⟩) (t.set k x)) ?_
      exact List.Perm.trans (List.Perm.cons a (ih k hk2)) (List.Perm.swap x a t)

theorem set_set_swap_perm {α : Type} (l : List α) (i j : Nat)
    (hi : i < l.length) (hj : j < l.length) :
    List.Perm ((l.set i (l.get ⟨j, hj⟩)).set j (l.get ⟨i, hi⟩)) l := by
  induction l generalizing i j with
  | nil => simp at hi
  | cons a t ih =>
    cases i with
    | zero =>
      cases j with
      | zero => simp
      | succ m =>
        have hm : m < t.length := by simpa using hj
        simpa using cons_get_set_perm t m a hm
    | succ k =>
      have hk : k < t.length := by simpa using hi
      cases j with
      | zero =>
        simpa using cons_get_set_perm t k a hk
      | succ m =>
        have hm : m < t.length := by simpa using hj
        simpa using List.Perm.cons a (ih k m hk hm)

theorem listSwap_perm {α : Type} (l : List α) (i j : Nat) :
    List.Perm (listSwap l i j) l := by
  unfold listSwap
  cases hi : l[i]? with
  | none => exact List.Perm.refl l
  | some a =>
    cases hj : l[j]? with
    | none => exact List.Perm.refl l
    | some b =>
      obtain ⟨hi2, rfl⟩ := List.getElem?_eq_some.1 hi
      obtain ⟨hj2, rfl⟩ := List.getElem?_eq_some.1 hj
      simpa using set_set_swap_perm l i j hi2 hj2

theorem fisherYatesLoop_perm (draw : Nat → ℚ) (k : Nat) (l : List Artifact) (i : Nat) :
    List.Perm (fisherYatesLoop draw k l i) l := by
  induction i generalizing k l with
  | zero => exact List.Perm.refl l
  | succ i ih =>
    exact List.Perm.trans (ih (k + 1) _) (listSwap_perm l (i + 1) _)

/-- C9: for every count and every draw function producing draws in [0,1),
`generateArtifactCandidates` returns a list of length
`min count ARTIFACT_POOL.length` obtained by truncating a Fisher-Yates
shuffle of the fixed pool (the shuffle is a permutation of the pool), and
the returned list never contains two artifacts with the same id. -/
theorem C9_artifact_candidates (count : Nat) (draw : Nat → ℚ)
    (hdraw : ∀ n, 0 ≤ draw n ∧ draw n < 1) :
    (generateArtifactCandidates count draw).length = min count ARTIFACT_POOL.length
    ∧ ((generateArtifactCandidates count draw).map Artifact.id).Nodup
    ∧ List.Perm (fisherYatesLoop draw 0 ARTIFACT_POOL (ARTIFACT_POOL.length - 1))
        ARTIFACT_POOL := by
  have hperm := fisherYatesLoop_perm draw 0 ARTIFACT_POOL (ARTIFACT_POOL.length - 1)
  have hlen : (fisherYatesLoop draw 0 ARTIFACT_POOL (ARTIFACT_POOL.length - 1)).length
      = ARTIFACT_POOL.length := hperm.length_eq
  have hnodup : ((fisherYatesLoop draw 0 ARTIFACT_POOL
      (ARTIFACT_POOL.length - 1)).map Artifact.id).Nodup :=
    ((hperm.map Artifact.id).nodup_iff).mpr nodup_artifact_pool_ids
  unfold generateArtifactCandidates
  by_cases hc : count = 0
  · subst hc
    exact ⟨by simp, by simp, hperm⟩
  · rw [if_neg hc]
    refine ⟨?_, ?_, hperm⟩
    · rw [List.length_take, hlen]
      by_cases h10 : ARTIFACT_POOL.length < count
      · rw [if_pos h10, Nat.min_self, Nat.min_eq_right (Nat.le_of_lt h10)]
      · rw [if_neg h10]
    · exact List.Nodup.sublist
        ((List.take_sublist _ _).map Artifact.id) hnodup

/-- Witness for C9 at count 3 with the constant-zero draw stream. -/
theorem C9_artifact_candidates_witness :
    (generateArtifactCandidates 3 zeroDraw).length = min 3 ARTIFACT_POOL.length
    ∧ ((generateArtifactCandidates 3 zeroDraw).map Artifact.id).Nodup
    ∧ List.Perm (fisherYatesLoop zeroDraw 0 ARTIFACT_POOL (ARTIFACT_POOL.length - 1))
        ARTIFACT_POOL :=
  C9_artifact_candidates 3 zeroDraw (fun n => ⟨le_refl 0, by norm_num [zeroDraw]⟩)

/-! ## Field-preservation lemmas for the movement operations -/

theorem fieldsEq_refl (a : GameState) : FieldsEq a a :=
  ⟨rfl, rfl, rfl, rfl, rfl⟩

theorem fieldsEq_trans {a b c : GameState} (h1 : FieldsEq a b) (h2 : FieldsEq b c) :
    FieldsEq a c := by
  obtain ⟨p1, t1, h1', r1, l1⟩ := h1
  obtain ⟨p2, t2, h2', r2, l2⟩ := h2
  exact ⟨p1.trans p2, t1.trans t2, h1'.trans h2', r1.trans r2, l1.trans l2⟩

theorem spawnPieceFromHome_fields (sid : String) (state : GameState) (pos : NodeId)
    (out : GameState) (h : spawnPieceFromHome sid state pos = Except.ok out) :
    FieldsEq out state := by
  unfold spawnPieceFromHome at h
  cases hh : getHomePieces state with
  | nil => rw [hh] at h; cases h
  | cons p rest =>
    rw [hh] at h
    injection h with h2
    subst h2
    exact ⟨rfl, rfl, rfl, rfl, by simp⟩

theorem moveStack_fields (state : GameState) (sid : String) (pos : NodeId)
    (out : GameState) (h : moveStack state sid pos = Except.ok out) :
    FieldsEq out state := by
  unfold moveStack at h
  cases hh : state.stacks.find? (fun s => s.id == sid) with
  | none => rw [hh] at h; cases h
  | some st =>
    rw [hh] at h
    injection h with h2
    subst h2
    exact ⟨rfl, rfl, rfl, rfl, by simp⟩

theorem finishStack_fields (state : GameState) (sid : String)
    (out : GameState) (h : finishStack state sid = Except.ok out) :
    FieldsEq out state := by
  unfold finishStack at h
  cases hh : state.stacks.find? (fun s => s.id == sid) with
  | none => rw [hh] at h; cases h
  | some st =>
    rw [hh] at h
    injection h with h2
    subst h2
    exact ⟨rfl, rfl, rfl, rfl, by simp⟩

theorem mergeStacks_fields (state : GameState) (sid1 sid2 : String)
    (out : GameState) (h : mergeStacks state sid1 sid2 = Except.ok out) :
    FieldsEq out state := by
  unfold mergeStacks at h
  cases h1 : state.stacks.find? (fun s => s.id == sid1) with
  | none => rw [h1] at h; cases h
  | some st1 =>
    cases h2 : state.stacks.find? (fun s => s.id == sid2) with
    | none => rw [h1, h2] at h; cases h
    | some st2 =>
      rw [h1, h2] at h
      dsimp only at h
      by_cases hp : st1.position ≠ st2.position
      · rw [if_pos hp] at h
        cases h
      · rw [if_neg hp] at h
        simp only [Except.ok.injEq] at h
        subst h
        exact ⟨rfl, rfl, rfl, rfl, rfl⟩

theorem executeMove_fields (sid : String) (state : GameState) (target : MoveTarget)
    (steps : Nat) (bc : Option BranchOption) (out : GameState)
    (h : executeMove sid state target steps bc = Except.ok out) :
    FieldsEq out state := by
  unfold executeMove at h
  split at h
  · -- HOME target
    split at h
    · -- spawn finishes immediately
      split at h
      · cases h
      · rename_i st1 hsp
        split at h
        · cases h
        · exact fieldsEq_trans (finishStack_fields _ _ _ h)
            (spawnPieceFromHome_fields _ _ _ _ hsp)
    · -- spawn to a node, possibly merging
      split at h
      · cases h
      · rename_i st1 hsp
        split at h
        · cases h
        · split at h
          · exact fieldsEq_trans (mergeStacks_fields _ _ _ _ h)
              (spawnPieceFromHome_fields _ _ _ _ hsp)
          · injection h with h2
            subst h2
            exact spawnPieceFromHome_fields _ _ _ _ hsp
  · -- STACK target
    split at h
    · cases h
    · split at h
      · cases h
      · split at h
        · -- stack finishes
          exact finishStack_fields _ _ _ h
        · -- stack moves, possibly merging
          split at h
          · cases h
          · rename_i st1 hmv
            split at h
            · cases h
            · split at h
              · exact fieldsEq_trans (mergeStacks_fields _ _ _ _ h)
                  (moveStack_fields _ _ _ _ hmv)
              · injection h with h2
                subst h2
                exact moveStack_fields _ _ _ _ hmv

theorem length_filter_finished_eq_iff (l : List Piece) :
    ((l.filter (fun p => decide (p.state = PieceState.FINISHED))).length = l.length)
    ↔ l.all (fun p => decide (p.state = PieceState.FINISHED)) = true := by
  induction l with
  | nil => simp
  | cons p t ih =>
    by_cases hp : p.state = PieceState.FINISHED
    · simp [List.filter_cons, hp, ih]
    · have hle := List.length_filter_le (fun q => decide (q.state = PieceState.FINISHED)) t
      simp [List.filter_cons, hp]
      omega

/-- C3: for every state with its 4 pieces and every EXECUTE_MOVE action with
an in-range token index whose move succeeds, the reducer removes the
consumed token, and then: if all pieces are FINISHED the phase becomes
GAME_OVER; otherwise if the remaining hand is empty the phase becomes THROW
with turn incremented by 1 and throwsRemaining reset to 1; otherwise the
state keeps its phase, turn and throwsRemaining with the reduced hand. -/
theorem C3_execute_move_resolution (pick : Nat → Fin seedChars.length) (sid : String)
    (state : GameState) (tokenIndex : Nat) (target : MoveTarget)
    (bc : Option BranchOption) (moved : GameState)
    (hidx : tokenIndex < state.hand.length)
    (hmv : executeMove sid state target (state.hand.get ⟨tokenIndex, hidx⟩).steps bc
      = Except.ok moved)
    (hp4 : state.pieces.length = 4) :
    ∃ res, gameReducer pick sid state (GameAction.EXECUTE_MOVE tokenIndex target bc)
        = Except.ok res
      ∧ res.hand = removeAtIndex state.hand tokenIndex
      ∧ (moved.pieces.all (fun p => decide (p.state = PieceState.FINISHED)) = true →
          res.phase = GamePhase.GAME_OVER)
      ∧ (moved.pieces.all (fun p => decide (p.state = PieceState.FINISHED)) = false →
          removeAtIndex state.hand tokenIndex = [] →
          res.phase = GamePhase.THROW ∧ res.turn = state.turn + 1
            ∧ res.throwsRemaining = 1)
      ∧ (moved.pieces.all (fun p => decide (p.state = PieceState.FINISHED)) = false →
          removeAtIndex state.hand tokenIndex ≠ [] →
          res.phase = state.phase ∧ res.turn = state.turn
            ∧ res.throwsRemaining = state.throwsRemaining) := by
  obtain ⟨fph, ftn, fhd, ftr, fpl⟩ := executeMove_fields _ _ _ _ _ _ hmv
  have hml : moved.pieces.length = 4 := by rw [fpl, hp4]
  have hgo_iff : (isGameOver { moved with
        hand := removeAtIndex moved.hand tokenIndex
        selectedTokenIndex := none
        selectedNodeId := none } = true)
      ↔ moved.pieces.all (fun p => decide (p.state = PieceState.FINISHED)) = true := by
    unfold isGameOver getFinishedCount
    rw [decide_eq_true_eq]
    rw [show ({ moved with
        hand := removeAtIndex moved.hand tokenIndex
        selectedTokenIndex := none
        selectedNodeId := none } : GameState).pieces = moved.pieces from rfl]
    rw [← length_filter_finished_eq_iff, hml]
  simp only [gameReducer]
  rw [dif_pos hidx, hmv]
  dsimp only
  by_cases hall : moved.pieces.all (fun p => decide (p.state = PieceState.FINISHED)) = true
  · rw [if_pos (hgo_iff.mpr hall)]
    refine ⟨_, rfl, ?_, ?_, ?_, ?_⟩
    · show removeAtIndex moved.hand tokenIndex = removeAtIndex state.hand tokenIndex
      rw [fhd]
    · intro _
      rfl
    · intro hf
      rw [hall] at hf
      cases hf
    · intro hf
      rw [hall] at hf
      cases hf
  · have hgo : ¬(isGameOver { moved with
        hand := removeAtIndex moved.hand tokenIndex
        selectedTokenIndex := none
        selectedNodeId := none } = true) := fun hc => hall (hgo_iff.mp hc)
    rw [if_neg hgo]
    have hallf : moved.pieces.all (fun p => decide (p.state = PieceState.FINISHED)) = false :=
      Bool.eq_false_iff.mpr (fun hc => hall hc)
    by_cases hempty : removeAtIndex state.hand tokenIndex = []
    · have hlen0 : ({ moved with
          hand := removeAtIndex moved.hand tokenIndex
          selectedTokenIndex := none
          selectedNodeId := none } : GameState).hand.length = 0 := by
        show (removeAtIndex moved.hand tokenIndex).length = 0
        rw [fhd, hempty]
        rfl
      rw [if_pos hlen0]
      refine ⟨_, rfl, ?_, ?_, ?_, ?_⟩
      · show removeAtIndex moved.hand tokenIndex = removeAtIndex state.hand tokenIndex
        rw [fhd]
      · intro hc
        rw [hc] at hallf
        cases hallf
      · intro _ _
        refine ⟨rfl, ?_, rfl⟩
        show moved.turn + 1 = state.turn + 1
        rw [ftn]
      · intro _ hne
        exact absurd hempty hne
    · have hlenne : ¬(({ moved with
          hand := removeAtIndex moved.hand tokenIndex
          selectedTokenIndex := none
          selectedNodeId := none } : GameState).hand.length = 0) := by
        show ¬((removeAtIndex moved.hand tokenIndex).length = 0)
        rw [fhd]
        intro hc
        exact hempty (List.length_eq_zero.mp hc)
      rw [if_neg hlenne]
      refine ⟨_, rfl, ?_, ?_, ?_, ?_⟩
      · show removeAtIndex moved.hand tokenIndex = removeAtIndex state.hand tokenIndex
        rw [fhd]
      · intro hc
        rw [hc] at hallf
        cases hallf
      · intro _ hc
        exact absurd hc hempty
      · intro _ _
        exact ⟨fph, ftn, ftr⟩

/-- Witness for C3: spawning from HOME with the single DO token of
`stateThrowWithToken`. -/
theorem C3_execute_move_resolution_witness :
    ∃ res, gameReducer pickZero "nsid" stateThrowWithToken
        (GameAction.EXECUTE_MOVE 0 ⟨MoveTargetType.HOME, none⟩ none)
        = Except.ok res
      ∧ res.hand = removeAtIndex stateThrowWithToken.hand 0
      ∧ (movedSpawnO1.pieces.all (fun p => decide (p.state = PieceState.FINISHED)) = true →
          res.phase = GamePhase.GAME_OVER)
      ∧ (movedSpawnO1.pieces.all (fun p => decide (p.state = PieceState.FINISHED)) = false →
          removeAtIndex stateThrowWithToken.hand 0 = [] →
          res.phase = GamePhase.THROW ∧ res.turn = stateThrowWithToken.turn + 1
            ∧ res.throwsRemaining = 1)
      ∧ (movedSpawnO1.pieces.all (fun p => decide (p.state = PieceState.FINISHED)) = false →
          removeAtIndex stateThrowWithToken.hand 0 ≠ [] →
          res.phase = stateThrowWithToken.phase ∧ res.turn = stateThrowWithToken.turn
            ∧ res.throwsRemaining = stateThrowWithToken.throwsRemaining) :=
  C3_execute_move_resolution pickZero "nsid" stateThrowWithToken 0
    ⟨MoveTargetType.HOME, none⟩ none movedSpawnO1 (by decide) rfl (by decide)

/-! ## Stack-list lemmas for the merge invariant -/

theorem find?_id_self (l : List Stack) (t : Stack)
    (hid : (l.map Stack.id).Nodup) (ht : t ∈ l) :
    l.find? (fun s => s.id == t.id) = some t := by
  induction l with
  | nil => cases ht
  | cons a rest ih =>
    simp only [List.map_cons, List.nodup_cons] at hid
    rcases List.mem_cons.mp ht with rfl | hmem
    · simp [List.find?_cons]
    · have hne : a.id ≠ t.id := by
        intro hc
        exact hid.1 (hc ▸ List.mem_map_of_mem Stack.id hmem)
      rw [List.find?_cons_of_neg _ (by simpa using hne)]
      exact ih hid.2 hmem

theorem filter_id_ne_eq_self (l : List Stack) (x : String)
    (h : ∀ s ∈ l, s.id ≠ x) :
    l.filter (fun s => s.id != x) = l :=
  List.filter_eq_self.mpr (fun s hs => by simpa [bne_iff_ne] using h s hs)

theorem find?_id_fresh_append (l : List Stack) (x : String) (nst : Stack)
    (h : ∀ s ∈ l, s.id ≠ x) (hnx : nst.id = x) :
    (l ++ [nst]).find? (fun s => s.id == x) = some nst := by
  rw [List.find?_append]
  have h1 : l.find? (fun s => s.id == x) = none :=
    List.find?_eq_none.mpr (fun s hs => by simp [h s hs])
  rw [h1]
  simp [List.find?_cons, hnx]

theorem filter_fresh_append (l : List Stack) (x : String) (nst : Stack)
    (h : ∀ s ∈ l, s.id ≠ x) (hnx : nst.id = x) :
    (l ++ [nst]).filter (fun s => s.id != x) = l := by
  rw [List.filter_append, filter_id_ne_eq_self l x h]
  simp [List.filter_cons, hnx]

theorem find?_id_map_replace (l : List Stack) (x : String) (upd : Stack)
    (hupd : upd.id = x) (y : String) :
    (l.map (fun s => if s.id == x then upd else s)).find? (fun s => s.id == y)
      = (l.find? (fun s => s.id == y)).map (fun s => if s.id == x then upd else s) := by
  have hfun : ((fun s => s.id == y) ∘ fun s => if s.id == x then upd else s)
      = (fun s : Stack => s.id == y) := by
    funext s
    by_cases hs : s.id = x
    · simp [Function.comp, hs, hupd]
    · simp [Function.comp, hs]
  rw [List.find?_map, hfun]

theorem filter_map_replace (l : List Stack) (x : String) (upd : Stack)
    (hupd : upd.id = x) :
    (l.map (fun s => if s.id == x then upd else s)).filter (fun s => s.id != x)
      = l.filter (fun s => s.id != x) := by
  induction l with
  | nil => rfl
  | cons a rest ih =>
    by_cases ha : a.id = x
    · have h1 : ((if a.id == x then upd else a).id != x) = false := by simp [ha, hupd]
      have h2 : (a.id != x) = false := by simp [ha]
      simp only [List.map_cons, List.filter_cons, h1, h2]
      simpa using ih
    · have h1 : (if a.id == x then upd else a) = a := by simp [ha]
      simp only [List.map_cons, List.filter_cons, h1]
      rw [ih]

theorem stack_unique_decomp (l : List Stack) (t : Stack)
    (hid : (l.map Stack.id).Nodup) (ht : t ∈ l) :
    ∃ l₁ l₂, l = l₁ ++ t :: l₂
      ∧ (∀ x ∈ l₁, x.id ≠ t.id) ∧ (∀ x ∈ l₂, x.id ≠ t.id) := by
  obtain ⟨l₁, l₂, rfl⟩ := List.append_of_mem ht
  rw [List.map_append, List.map_cons, List.nodup_middle, List.nodup_cons] at hid
  refine ⟨l₁, l₂, rfl, ?_, ?_⟩
  · intro x hx hc
    exact hid.1 (List.mem_append_left _ (hc ▸ List.mem_map_of_mem Stack.id hx))
  · intro x hx hc
    exact hid.1 (List.mem_append_right _ (hc ▸ List.mem_map_of_mem Stack.id hx))

theorem map_replace_positions (l : List Stack) (t g : Stack)
    (hid : (l.map Stack.id).Nodup) (ht : t ∈ l) (hg : g.position = t.position) :
    (l.map (fun s => if s.id == t.id then g else s)).map Stack.position
      = l.map Stack.position := by
  rw [List.map_map]
  apply List.map_congr_left
  intro s hs
  by_cases hbeq : s.id = t.id
  · have hst : s = t := List.inj_on_of_nodup_map hid hs ht hbeq
    subst hst
    simp [Function.comp, hg]
  · simp [Function.comp, hbeq]

theorem nodup_positions_update (l : List Stack) (st upd : Stack) (p : NodeId)
    (hid : (l.map Stack.id).Nodup) (hst : st ∈ l) (hupd : upd.position = p)
    (hothers : ∀ x ∈ l, x.id ≠ st.id → x.position ≠ p)
    (hpos : (l.map Stack.position).Nodup) :
    ((l.map (fun s => if s.id == st.id then upd else s)).map Stack.position).Nodup := by
  obtain ⟨l₁, l₂, rfl, h1, h2⟩ := stack_unique_decomp l st hid hst
  rw [List.map_map, List.map_append, List.map_cons]
  have e1 : l₁.map (Stack.position ∘ fun s => if s.id == st.id then upd else s)
      = l₁.map Stack.position :=
    List.map_congr_left (fun x hx => by simp [Function.comp, h1 x hx])
  have e2 : l₂.map (Stack.position ∘ fun s => if s.id == st.id then upd else s)
      = l₂.map Stack.position :=
    List.map_congr_left (fun x hx => by simp [Function.comp, h2 x hx])
  have est : (Stack.position ∘ fun s => if s.id == st.id then upd else s) st = p := by
    simp [Function.comp, hupd]
  rw [e1, e2, est, List.nodup_middle, List.nodup_cons]
  rw [List.map_append, List.map_cons, List.nodup_middle, List.nodup_cons] at hpos
  refine ⟨?_, hpos.2⟩
  intro hc
  rcases List.mem_append.mp hc with hc1 | hc2
  · obtain ⟨x, hx, hxp⟩ := List.mem_map.mp hc1
    exact hothers x (List.mem_append_left _ hx) (h1 x hx) hxp
  · obtain ⟨x, hx, hxp⟩ := List.mem_map.mp hc2
    exact hothers x (List.mem_append_right _ (List.mem_cons_of_mem st hx)) (h2 x hx) hxp

/-! ## Forward computation equations for the stack operations -/

theorem spawnPieceFromHome_result (sid : String) (state : GameState) (pos : NodeId)
    (pc : Piece) (rest : List Piece) (hhome : getHomePieces state = pc :: rest) :
    spawnPieceFromHome sid state pos = Except.ok { state with
      pieces := state.pieces.map (fun q =>
        if q.id == pc.id then
          { q with state := PieceState.ON_BOARD, position := some pos }
        else q)
      «stacks» := state.stacks ++ [⟨sid, [pc.id], pos⟩] } := by
  unfold spawnPieceFromHome
  rw [hhome]

theorem moveStack_result (state : GameState) (x : String) (pos : NodeId) (st : Stack)
    (hfind : state.stacks.find? (fun s => s.id == x) = some st) :
    moveStack state x pos = Except.ok { state with
      «stacks» := state.stacks.map (fun s =>
        if s.id == x then { st with position := pos } else s)
      pieces := state.pieces.map (fun q =>
        if st.pieceIds.contains q.id then { q with position := some pos } else q) } := by
  unfold moveStack
  rw [hfind]

theorem finishStack_result (state : GameState) (x : String) (st : Stack)
    (hfind : state.stacks.find? (fun s => s.id == x) = some st) :
    finishStack state x = Except.ok { state with
      «stacks» := state.stacks.filter (fun s => s.id != x)
      pieces := state.pieces.map (fun q =>
        if st.pieceIds.contains q.id then
          { q with state := PieceState.FINISHED, position := none }
        else q) } := by
  unfold finishStack
  rw [hfind]

theorem mergeStacks_result (st1 : GameState) (t : Stack) (x : String) (nst : Stack)
    (hfind1 : st1.stacks.find? (fun s => s.id == t.id) = some t)
    (hfind2 : st1.stacks.find? (fun s => s.id == x) = some nst)
    (hp : t.position = nst.position) :
    mergeStacks st1 t.id x = Except.ok { st1 with
      «stacks» := (st1.stacks.filter (fun s => s.id != x)).map
        (fun s => if s.id == t.id then
          { t with pieceIds := t.pieceIds ++ nst.pieceIds } else s) } := by
  unfold mergeStacks
  rw [hfind1, hfind2]
  dsimp only
  rw [if_neg (by simp [hp])]

/-- C2: for every game state whose stacks have pairwise-distinct board
positions (and distinct ids, with a fresh spawned-stack id), a successful
`executeMove` preserves the distinct-position invariant; and whenever the
spawned or moved stack's final position is already occupied, the occupying
stack absorbs it: the result replaces the occupant by a single stack whose
pieceIds is the concatenation of the occupant's and the arriving stack's
pieceIds, with the arriving stack removed. -/
theorem C2_stack_merge_invariant (sid : String) (state : GameState)
    (target : MoveTarget) (steps : Nat) (bc : Option BranchOption)
    (moved : GameState)
    (hid : (state.stacks.map Stack.id).Nodup)
    (hfresh : ∀ s ∈ state.stacks, s.id ≠ sid)
    (hpos : (state.stacks.map Stack.position).Nodup)
    (hmv : executeMove sid state target steps bc = Except.ok moved) :
    (moved.stacks.map Stack.position).Nodup
    ∧ (∀ p pc rest t, target.type = MoveTargetType.HOME →
        traverseSteps "O0" steps bc = TraverseResult.node p →
        getHomePieces state = pc :: rest →
        state.stacks.find? (fun s => s.position == p) = some t →
        moved.stacks = state.stacks.map
          (fun s => if s.id == t.id then
            { t with pieceIds := t.pieceIds ++ [pc.id] } else s))
    ∧ (∀ stackId st p t, target.type = MoveTargetType.STACK →
        target.stackId = some stackId →
        state.stacks.find? (fun s => s.id == stackId) = some st →
        traverseSteps st.position steps bc = TraverseResult.node p →
        (state.stacks.filter (fun s => s.id != st.id)).find?
          (fun s => s.position == p) = some t →
        moved.stacks = (state.stacks.filter (fun s => s.id != st.id)).map
          (fun s => if s.id == t.id then
            { t with pieceIds := t.pieceIds ++ st.pieceIds } else s)) := by
  rcases target with ⟨ty, tsid⟩
  cases ty with
  | HOME =>
    unfold executeMove at hmv
    dsimp only at hmv
    cases hhome : getHomePieces state with
    | nil =>
      have hsperr : ∀ pos, spawnPieceFromHome sid state pos
          = Except.error "No pieces at HOME to spawn" := by
        intro pos
        unfold spawnPieceFromHome
        rw [hhome]
      cases htr : traverseSteps "O0" steps bc with
      | FINISHED =>
        rw [htr] at hmv
        dsimp only at hmv
        rw [hsperr] at hmv
        simp at hmv
      | node p =>
        rw [htr] at hmv
        dsimp only at hmv
        rw [hsperr] at hmv
        simp at hmv
    | cons pc rest =>
      cases htr : traverseSteps "O0" steps bc with
      | FINISHED =>
        rw [htr] at hmv
        dsimp only at hmv
        rw [spawnPieceFromHome_result sid state "O20" pc rest hhome] at hmv
        dsimp only at hmv
        rw [List.getLast?_concat] at hmv
        dsimp only at hmv
        have hfind : (state.stacks ++ [(⟨sid, [pc.id], "O20"⟩ : Stack)]).find?
            (fun s => s.id == sid) = some ⟨sid, [pc.id], "O20"⟩ :=
          find?_id_fresh_append state.stacks sid _ hfresh rfl
        rw [finishStack_result _ sid ⟨sid, [pc.id], "O20"⟩ hfind] at hmv
        injection hmv with hmv
        subst hmv
        refine ⟨?_, ?_, ?_⟩
        · show (((state.stacks ++ [(⟨sid, [pc.id], "O20"⟩ : Stack)]).filter
            (fun s => s.id != sid)).map Stack.position).Nodup
          rw [filter_fresh_append state.stacks sid _ hfresh rfl]
          exact hpos
        · intro p' pc' rest' t' _ htr' _ _
          cases htr'
        · intro stackId' st' p' t' hty
          simp at hty
      | node p =>
        rw [htr] at hmv
        dsimp only at hmv
        rw [spawnPieceFromHome_result sid state p pc rest hhome] at hmv
        dsimp only at hmv
        rw [List.getLast?_concat] at hmv
        dsimp only at hmv
        unfold findStackAtPosition at hmv
        dsimp only at hmv
        rw [filter_fresh_append state.stacks sid _ hfresh rfl] at hmv
        cases hocc : state.stacks.find? (fun s => s.position == p) with
        | none =>
          rw [hocc] at hmv
          dsimp only at hmv
          injection hmv with hmv
          subst hmv
          refine ⟨?_, ?_, ?_⟩
          · show ((state.stacks ++ [(⟨sid, [pc.id], p⟩ : Stack)]).map
              Stack.position).Nodup
            rw [List.map_append, List.nodup_append]
            refine ⟨hpos, by simp, ?_⟩
            intro a ha hb
            obtain ⟨x, hx, hxp⟩ := List.mem_map.mp ha
            have hb2 : a = p := by simpa using hb
            have := List.find?_eq_none.mp hocc x hx
            rw [hxp, hb2] at this
            simp at this
          · intro p' pc' rest' t' _ htr' hhome' hocc'
            injection htr' with hp'
            subst hp'
            rw [hocc] at hocc'
            cases hocc'
          · intro stackId' st' p' t' hty
            simp at hty
        | some t =>
          rw [hocc] at hmv
          dsimp only at hmv
          have ht_mem : t ∈ state.stacks := List.mem_of_find?_eq_some hocc
          have ht_pos : t.position = p := by simpa using List.find?_some hocc
          have hfind1 : (state.stacks ++ [(⟨sid, [pc.id], p⟩ : Stack)]).find?
              (fun s => s.id == t.id) = some t := by
            rw [List.find?_append, find?_id_self state.stacks t hid ht_mem]
            rfl
          have hfind2 : (state.stacks ++ [(⟨sid, [pc.id], p⟩ : Stack)]).find?
              (fun s => s.id == sid) = some ⟨sid, [pc.id], p⟩ :=
            find?_id_fresh_append state.stacks sid _ hfresh rfl
          rw [mergeStacks_result _ t sid ⟨sid, [pc.id], p⟩ hfind1 hfind2 ht_pos] at hmv
          injection hmv with hmv
          subst hmv
          refine ⟨?_, ?_, ?_⟩
          · show ((((state.stacks ++ [(⟨sid, [pc.id], p⟩ : Stack)]).filter
                (fun s => s.id != sid)).map
                (fun s => if s.id == t.id then
                  { t with pieceIds := t.pieceIds ++ [pc.id] } else s)).map
                Stack.position).Nodup
            rw [filter_fresh_append state.stacks sid _ hfresh rfl]
            rw [map_replace_positions state.stacks t
              ({ t with pieceIds := t.pieceIds ++ [pc.id] }) hid ht_mem rfl]
            exact hpos
          · intro p' pc' rest' t' _ htr' hhome' hocc'
            injection htr' with hp'
            subst hp'
            rw [hocc] at hocc'
            injection hocc' with ht'
            subst ht'
            injection hhome' with hpc' hrest'
            subst hpc'
            show _ = _
            rw [filter_fresh_append state.stacks sid _ hfresh rfl]
          · intro stackId' st' p' t' hty
            simp at hty
  | STACK =>
    unfold executeMove at hmv
    dsimp only at hmv
    cases tsid with
    | none => simp at hmv
    | some stackId =>
      dsimp only at hmv
      cases hfind : state.stacks.find? (fun s => s.id == stackId) with
      | none =>
        rw [hfind] at hmv
        simp at hmv
      | some st =>
        rw [hfind] at hmv
        dsimp only at hmv
        have hst_mem : st ∈ state.stacks := List.mem_of_find?_eq_some hfind
        have hfind2 : state.stacks.find? (fun s => s.id == st.id) = some st :=
          find?_id_self state.stacks st hid hst_mem
        cases htr : traverseSteps st.position steps bc with
        | FINISHED =>
          rw [htr] at hmv
          dsimp only at hmv
          rw [finishStack_result state st.id st hfind2] at hmv
          injection hmv with hmv
          subst hmv
          refine ⟨?_, ?_, ?_⟩
          · show ((state.stacks.filter (fun s => s.id != st.id)).map
              Stack.position).Nodup
            exact hpos.sublist ((List.filter_sublist _).map _)
          · intro p' pc' rest' t' hty
            simp at hty
          · intro stackId' st' p' t' _ hsid' hfind' htr' hocc'
            have hsid2 : stackId = stackId' := by simpa using hsid'
            subst hsid2
            rw [hfind] at hfind'
            injection hfind' with hst'
            subst hst'
            rw [htr] at htr'
            cases htr'
        | node p =>
          rw [htr] at hmv
          dsimp only at hmv
          rw [moveStack_result state st.id p st hfind2] at hmv
          dsimp only at hmv
          rw [find?_id_map_replace state.stacks st.id { st with position := p } rfl st.id,
            hfind2] at hmv
          simp only [Option.map_some', beq_self_eq_true, eq_self_iff_true, if_true] at hmv
          unfold findStackAtPosition at hmv
          dsimp only at hmv
          rw [filter_map_replace state.stacks st.id { st with position := p } rfl] at hmv
          cases hocc : (state.stacks.filter (fun s => s.id != st.id)).find?
              (fun s => s.position == p) with
          | none =>
            rw [hocc] at hmv
            dsimp only at hmv
            injection hmv with hmv
            subst hmv
            refine ⟨?_, ?_, ?_⟩
            · show ((state.stacks.map (fun s =>
                if s.id == st.id then { st with position := p } else s)).map
                Stack.position).Nodup
              refine nodup_positions_update state.stacks st _ p hid hst_mem rfl ?_ hpos
              intro x hx hxid hxp
              have hxf : x ∈ state.stacks.filter (fun s => s.id != st.id) :=
                List.mem_filter.mpr ⟨hx, by simpa [bne_iff_ne] using hxid⟩
              have := List.find?_eq_none.mp hocc x hxf
              rw [hxp] at this
              simp at this
            · intro p' pc' rest' t' hty
              simp at hty
            · intro stackId' st' p' t' _ hsid' hfind' htr' hocc'
              have hsid2 : stackId = stackId' := by simpa using hsid'
              subst hsid2
              rw [hfind] at hfind'
              injection hfind' with hst'
              subst hst'
              rw [htr] at htr'
              injection htr' with hp'
              subst hp'
              rw [hocc] at hocc'
              cases hocc'
          | some t =>
            rw [hocc] at hmv
            dsimp only at hmv
            have ht_mem_f : t ∈ state.stacks.filter (fun s => s.id != st.id) :=
              List.mem_of_find?_eq_some hocc
            have ht_mem : t ∈ state.stacks := List.mem_of_mem_filter ht_mem_f
            have ht_id_ne : t.id ≠ st.id := by
              have := (List.mem_filter.mp ht_mem_f).2
              simpa [bne_iff_ne] using this
            have ht_pos : t.position = p := by simpa using List.find?_some hocc
            have hf1 : (state.stacks.map (fun s =>
                if s.id == st.id then { st with position := p } else s)).find?
                (fun s => s.id == t.id) = some t := by
              rw [find?_id_map_replace state.stacks st.id { st with position := p } rfl t.id]
              rw [find?_id_self state.stacks t hid ht_mem]
              simp [ht_id_ne]
            have hf2 : (state.stacks.map (fun s =>
                if s.id == st.id then { st with position := p } else s)).find?
                (fun s => s.id == st.id) = some { st with position := p } := by
              rw [find?_id_map_replace state.stacks st.id { st with position := p } rfl st.id, hfind2]
              simp
            rw [mergeStacks_result _ t st.id { st with position := p } hf1 hf2 ht_pos] at hmv
            injection hmv with hmv
            subst hmv
            refine ⟨?_, ?_, ?_⟩
            · show ((((state.stacks.map (fun s =>
                  if s.id == st.id then { st with position := p } else s)).filter
                  (fun s => s.id != st.id)).map
                  (fun s => if s.id == t.id then
                    { t with pieceIds := t.pieceIds ++ st.pieceIds } else s)).map
                  Stack.position).Nodup
              rw [filter_map_replace state.stacks st.id { st with position := p } rfl]
              rw [map_replace_positions (state.stacks.filter (fun s => s.id != st.id))
                t ({ t with pieceIds := t.pieceIds ++ st.pieceIds })
                (hid.sublist ((List.filter_sublist _).map _)) ht_mem_f rfl]
              exact hpos.sublist ((List.filter_sublist _).map _)
            · intro p' pc' rest' t' hty
              simp at hty
            · intro stackId' st' p' t' _ hsid' hfind' htr' hocc'
              have hsid2 : stackId = stackId' := by simpa using hsid'
              subst hsid2
              rw [hfind] at hfind'
              injection hfind' with hst'
              subst hst'
              rw [htr] at htr'
              injection htr' with hp'
              subst hp'
              rw [hocc] at hocc'
              injection hocc' with ht'
              subst ht'
              show _ = _
              rw [filter_map_replace state.stacks st.id { st with position := p } rfl]

/-- Witness for C2: spawning a second piece onto the occupied node O5 merges
the two stacks into one with concatenated pieceIds, keeping positions
distinct. -/
theorem C2_stack_merge_invariant_witness :
    (movedMergeO5.stacks.map Stack.position).Nodup
    ∧ movedMergeO5.stacks = stateWithStackO5.stacks.map
        (fun s => if s.id == (⟨"sidA", [0], "O5"⟩ : Stack).id then
          { (⟨"sidA", [0], "O5"⟩ : Stack) with
            pieceIds := (⟨"sidA", [0], "O5"⟩ : Stack).pieceIds
              ++ [(⟨1, PieceState.HOME, none⟩ : Piece).id] } else s) :=
  ⟨(C2_stack_merge_invariant "sidB" stateWithStackO5 ⟨MoveTargetType.HOME, none⟩ 5 none
      movedMergeO5 (by decide) (by decide) (by decide) rfl).1,
    (C2_stack_merge_invariant "sidB" stateWithStackO5 ⟨MoveTargetType.HOME, none⟩ 5 none
      movedMergeO5 (by decide) (by decide) (by decide) rfl).2.1 "O5"
      ⟨1, PieceState.HOME, none⟩
      [⟨2, PieceState.HOME, none⟩, ⟨3, PieceState.HOME, none⟩]
      ⟨"sidA", [0], "O5"⟩ rfl rfl rfl rfl⟩

end YutRun
